import Mathlib

/-!
Verification development for the `pports` port/process correlation and
safe-termination engine (`src/core/port_scanner.py`, `src/core/process_manager.py`).

The Python modules are shallowly embedded: the ambient OS process table is an
explicit `World` (a map from PID to a process-table entry, where a missing
entry models `psutil.NoSuchProcess` and a `denied` entry models
`psutil.AccessDenied`), the socket table is an explicit list of raw
connections, and termination signals are recorded in an explicit trace instead
of being delivered to the OS.  Every definition mirrors the corresponding
Python function.  Python string primitives (`lower`, `upper`, `in`, `<`) are
embedded as character-list functions so that all definitions evaluate inside
the kernel; the embedded strings are ASCII, for which these agree with
Python's semantics.
-/

/-- Python `str.lower()` (ASCII case folding on the character data). -/
def strLower (s : String) : String := ⟨s.data.map Char.toLower⟩

/-- Python `str.upper()` (ASCII case folding on the character data). -/
def strUpper (s : String) : String := ⟨s.data.map Char.toUpper⟩

/-- Python's lexicographic `<` on strings, as a comparison of character
lists. -/
def charsLt : List Char → List Char → Bool
  | [], [] => false
  | [], _ :: _ => true
  | _ :: _, [] => false
  | a :: as, b :: bs => decide (a < b) || (a == b && charsLt as bs)

/-- Does `pre` start the second list?  (Building block of Python's `in`.) -/
def charsStartWith : List Char → List Char → Bool
  | [], _ => true
  | _ :: _, [] => false
  | a :: as, b :: bs => a == b && charsStartWith as bs

/-- Does `needle` occur as a contiguous run inside the second list? -/
def charsContain (needle : List Char) : List Char → Bool
  | [] => needle.isEmpty
  | b :: bs => charsStartWith needle (b :: bs) || charsContain needle bs

/-- Python's `needle in hay` substring test on strings. -/
def strContains (needle hay : String) : Bool :=
  charsContain needle.data hay.data

/-- `ConnectionStatus` from `port_scanner.py`: classification of a socket's
connection state. -/
inductive ConnectionStatus where
  | LISTEN
  | ESTABLISHED
  | CLOSE_WAIT
  | TIME_WAIT
  | SYN_SENT
  | SYN_RECV
  | FIN_WAIT1
  | FIN_WAIT2
  | CLOSING
  | LAST_ACK
  | UNKNOWN
deriving DecidableEq, Repr

/-- A socket address as reported by the OS socket table (`conn.laddr` /
`conn.raddr` in psutil): an IP string and a port number. -/
structure SockAddr where
  ip : String
  port : Nat
deriving DecidableEq, Repr

/-- Socket type: `socket.SOCK_STREAM` (TCP) or `socket.SOCK_DGRAM` (UDP). -/
inductive ConnType where
  | stream
  | dgram
deriving DecidableEq, Repr

/-- A raw connection as yielded by `psutil.net_connections`: local/remote
address (possibly absent), the psutil status string, the socket type and the
owner PID attributed by the OS (possibly absent). -/
structure RawConn where
  laddr : Option SockAddr
  raddr : Option SockAddr
  status : String
  type : ConnType
  pid : Option Nat
deriving DecidableEq, Repr

/-- Process attributes readable through `psutil.Process` for a live entry of
the process table.  `ppid = none` models `Process.ppid()` itself raising
(`NoSuchProcess`/`AccessDenied`), `zombie = true` models a zombie process
(full metadata fetch raises `psutil.ZombieProcess`), `running` is what
`Process.is_running()` reports, and `diesOnTerm`/`diesOnKill` record whether
the process exits within the wait budget after receiving SIGTERM/SIGKILL. -/
structure ProcInfo where
  name : String
  exe : String
  cmdline : List String
  username : String
  createTime : Nat
  ppid : Option Nat
  running : Bool
  zombie : Bool
  diesOnTerm : Bool
  diesOnKill : Bool
deriving DecidableEq, Repr

/-- A process-table entry: metadata access denied, or readable attributes. -/
inductive ProcEntry where
  | denied
  | ok (info : ProcInfo)
deriving DecidableEq, Repr

/-- The ambient OS process table.  `w pid = none` models
`psutil.NoSuchProcess` for `pid`. -/
def World : Type := Nat → Option ProcEntry

/-- The process-metadata half of a `PortInfo` record as produced by
`PortScanner._get_process_info` (a dict in the source). -/
structure ProcFields where
  pid : Option Nat
  process_name : Option String
  process_exe : Option String
  process_cmdline : Option String
  process_username : Option String
  process_create_time : Option Nat
deriving DecidableEq, Repr

/-- `PortInfo` from `port_scanner.py`: one socket joined with its owning
process's metadata. -/
structure PortInfo where
  port : Nat
  protocol : String
  status : ConnectionStatus
  local_addr : Option String
  remote_addr : Option String
  remote_port : Option Nat
  pid : Option Nat
  process_name : Option String
  process_exe : Option String
  process_cmdline : Option String
  process_username : Option String
  process_create_time : Option Nat
deriving DecidableEq, Repr

/-- `PortScanner._status_mapping` applied via `.get(conn.status, UNKNOWN)`:
maps the psutil status string to `ConnectionStatus`, defaulting to
`UNKNOWN` (UDP sockets report a status outside the ten mapped keys). -/
def statusMapping (s : String) : ConnectionStatus :=
  if s = "LISTEN" then .LISTEN
  else if s = "ESTABLISHED" then .ESTABLISHED
  else if s = "CLOSE_WAIT" then .CLOSE_WAIT
  else if s = "TIME_WAIT" then .TIME_WAIT
  else if s = "SYN_SENT" then .SYN_SENT
  else if s = "SYN_RECV" then .SYN_RECV
  else if s = "FIN_WAIT1" then .FIN_WAIT1
  else if s = "FIN_WAIT2" then .FIN_WAIT2
  else if s = "CLOSING" then .CLOSING
  else if s = "LAST_ACK" then .LAST_ACK
  else .UNKNOWN

/-- `PortScanner._get_process_info`: fetch process metadata for the socket's
owner PID.  `pid = none` yields an all-empty record; a PID whose metadata
fetch raises (`NoSuchProcess`, `AccessDenied`, `ZombieProcess`) yields the
degraded record with the synthesized name; otherwise the full metadata. -/
def get_process_info (w : World) (pid : Option Nat) : ProcFields :=
  match pid with
  | none =>
    { pid := none, process_name := none, process_exe := none,
      process_cmdline := none, process_username := none,
      process_create_time := none }
  | some p =>
    match w p with
    | some (.ok info) =>
      if info.zombie then
        { pid := some p,
          process_name := some ("PID:" ++ toString p ++ " (недоступен)"),
          process_exe := none, process_cmdline := none,
          process_username := none, process_create_time := none }
      else
        { pid := some p,
          process_name := some info.name,
          process_exe := some info.exe,
          process_cmdline := some (String.intercalate " " info.cmdline),
          process_username := some info.username,
          process_create_time := some info.createTime }
    | _ =>
      { pid := some p,
        process_name := some ("PID:" ++ toString p ++ " (недоступен)"),
        process_exe := none, process_cmdline := none,
        process_username := none, process_create_time := none }

/-- `PortScanner._process_connection`: turn one raw connection into a
`PortInfo`, or `none` when the connection has no local address. -/
def process_connection (w : World) (conn : RawConn) : Option PortInfo :=
  match conn.laddr with
  | none => none
  | some la =>
    let pf := get_process_info w conn.pid
    some
      { port := la.port
        protocol := if conn.type = ConnType.stream then "TCP" else "UDP"
        status := statusMapping conn.status
        local_addr := some la.ip
        remote_addr := conn.raddr.map (fun a => a.ip)
        remote_port := conn.raddr.map (fun a => a.port)
        pid := pf.pid
        process_name := pf.process_name
        process_exe := pf.process_exe
        process_cmdline := pf.process_cmdline
        process_username := pf.process_username
        process_create_time := pf.process_create_time }

/-- The sort order of `scan_all_ports`: Python's ascending comparison of the
key tuple `(x.protocol, x.port)` (string comparison on the protocol first,
then the port number). -/
def keyLe (a b : PortInfo) : Prop :=
  charsLt a.protocol.data b.protocol.data = true ∨
    (a.protocol = b.protocol ∧ a.port ≤ b.port)

instance : DecidableRel keyLe := fun a b =>
  inferInstanceAs (Decidable (charsLt a.protocol.data b.protocol.data = true ∨
    (a.protocol = b.protocol ∧ a.port ≤ b.port)))

/-- `PortScanner.scan_all_ports`: process every enumerated connection,
dropping the ones without a local address, and return the batch sorted by
`(protocol, port)`.  Python's `sorted` is a stable sort; it is embedded as
the stable `List.insertionSort` by the key order. -/
def scan_all_ports (w : World) (conns : List RawConn) : List PortInfo :=
  (conns.filterMap (fun c => process_connection w c)).insertionSort keyLe

/-- `PortScanner.scan_listening_ports`: the LISTEN-state filter of a full
scan. -/
def scan_listening_ports (w : World) (conns : List RawConn) : List PortInfo :=
  (scan_all_ports w conns).filter (fun p => decide (p.status = .LISTEN))

/-- `PortScanner.scan_port_range`: the full scan filtered to
`start_port ≤ port ≤ end_port` with a case-insensitive protocol match. -/
def scan_port_range (w : World) (conns : List RawConn)
    (start_port end_port : Nat) (protocol : String) : List PortInfo :=
  (scan_all_ports w conns).filter
    (fun p => decide (start_port ≤ p.port) && decide (p.port ≤ end_port) &&
      (strLower p.protocol == strLower protocol))

/-- `PortScanner.find_port_by_number`: the full scan filtered by exact port
number, then (when a non-empty protocol string is supplied — Python tests the
argument's truthiness) by case-insensitive protocol. -/
def find_port_by_number (w : World) (conns : List RawConn)
    (port_number : Nat) (protocol : Option String) : List PortInfo :=
  let result := (scan_all_ports w conns).filter (fun p => p.port == port_number)
  match protocol with
  | some pr =>
    if pr = "" then result
    else result.filter (fun p => strLower p.protocol == strLower pr)
  | none => result

/-- `TerminationResult` from `process_manager.py`. -/
inductive TerminationResult where
  | SUCCESS
  | NOT_FOUND
  | ACCESS_DENIED
  | TIMEOUT
  | SYSTEM_PROCESS
  | ERROR
  | ALREADY_TERMINATED
deriving DecidableEq, Repr

/-- `ProcessTerminationInfo` from `process_manager.py`. -/
structure ProcessTerminationInfo where
  pid : Nat
  name : String
  result : TerminationResult
  message : String
  duration : Nat := 0
deriving DecidableEq, Repr

/-- A termination signal delivered to a PID: `Process.terminate()` (SIGTERM)
or `Process.kill()` (SIGKILL). -/
inductive Signal where
  | sigterm (pid : Nat)
  | sigkill (pid : Nat)
deriving DecidableEq, Repr

/-- Result of running the termination state machine: the reported outcome,
the trace of signals actually delivered, and the resulting process table. -/
structure TermResult where
  outcome : ProcessTerminationInfo
  signals : List Signal
  world : World

/-- `ProcessManager.PROTECTED_PROCESSES`: the fixed deny-list of name
substrings identifying OS-critical processes. -/
def PROTECTED_PROCESSES : List String :=
  ["systemd", "kernel", "kthreadd", "ksoftirqd", "migration", "rcu_",
   "watchdog", "systemd-", "dbus", "NetworkManager", "sshd",
   "init", "swapper", "idle"]

/-- `ProcessManager.SYSTEM_PORTS`: the fixed set of well-known system
ports blocked from by-port termination unless explicitly allowed. -/
def SYSTEM_PORTS : List Nat := [22, 53, 80, 443, 25, 110, 143, 993, 995]

/-- `ProcessManager.is_process_protected`: fail-closed protection predicate.
A PID whose metadata cannot be read is protected; otherwise the deny-list
substring check on the lower-cased name, the `pid == 1` check and the
`ppid() == 2` kernel-thread check are applied in the source's order (an
unobtainable parent PID, `ppid = none`, falls through to unprotected). -/
def is_process_protected (w : World) (pid : Nat) : Bool :=
  match w pid with
  | none => true
  | some .denied => true
  | some (.ok info) =>
    let process_name := strLower info.name
    if PROTECTED_PROCESSES.any (fun s => strContains s process_name) then true
    else if pid = 1 then true
    else
      match info.ppid with
      | some pp => decide (pp = 2)
      | none => false

/-- Mark `pid`'s process-table entry as no longer running (the effect of a
termination wait completing successfully). -/
def killWorld (w : World) (pid : Nat) : World :=
  fun n =>
    if n = pid then
      match w n with
      | some (.ok info) => some (.ok { info with running := false })
      | e => e
    else w n

/-- The body of `ProcessManager.terminate_process_by_pid`, with the source's
self-recursion made structural through an explicit escalation budget `fuel`
(the spec's "explicit escalation budget"): resolve the process (missing →
`NOT_FOUND`, metadata denied → `ACCESS_DENIED`), check protection
(→ `SYSTEM_PROCESS`), check liveness (→ `ALREADY_TERMINATED`), send SIGKILL
(`force`) or SIGTERM, and wait.  A wait that times out under SIGTERM
re-invokes the whole procedure with `force := true`, `timeout / 2` and one
less unit of budget; a timed-out SIGKILL is terminal `TIMEOUT`.  The
`fuel = 0` soft row is unreachable from `terminate_process_by_pid` (the
escalated call is always forced) and is mapped to the terminal `TIMEOUT`
outcome. -/
def terminateFuel (w : World) (pid : Nat) (fuel : Nat) (force : Bool)
    (timeout : Nat) : TermResult :=
  match w pid with
  | none =>
    { outcome :=
        { pid := pid, name := "Неизвестен", result := .NOT_FOUND,
          message := "Процесс с PID " ++ toString pid ++ " не найден" },
      signals := [], world := w }
  | some .denied =>
    { outcome :=
        { pid := pid, name := "Недоступен", result := .ACCESS_DENIED,
          message := "Недостаточно прав для завершения процесса PID " ++
            toString pid ++
            ". Попробуйте запустить с правами администратора." },
      signals := [], world := w }
  | some (.ok info) =>
    if is_process_protected w pid then
      { outcome :=
          { pid := pid, name := info.name, result := .SYSTEM_PROCESS,
            message := "Процесс " ++ info.name ++ " (PID: " ++ toString pid ++
              ") является системным и защищен от завершения" },
        signals := [], world := w }
    else if !info.running then
      { outcome :=
          { pid := pid, name := info.name, result := .ALREADY_TERMINATED,
            message := "Процесс " ++ info.name ++ " (PID: " ++ toString pid ++
              ") уже завершен" },
        signals := [], world := w }
    else if force then
      if info.diesOnKill then
        { outcome :=
            { pid := pid, name := info.name, result := .SUCCESS,
              message := "Процесс " ++ info.name ++ " (PID: " ++
                toString pid ++ ") успешно завершен сигналом SIGKILL" },
          signals := [Signal.sigkill pid], world := killWorld w pid }
      else
        { outcome :=
            { pid := pid, name := info.name, result := .TIMEOUT,
              message := "Таймаут при завершении процесса " ++ info.name ++
                " (PID: " ++ toString pid ++ ")" },
          signals := [Signal.sigkill pid], world := w }
    else
      if info.diesOnTerm then
        { outcome :=
            { pid := pid, name := info.name, result := .SUCCESS,
              message := "Процесс " ++ info.name ++ " (PID: " ++
                toString pid ++ ") успешно завершен сигналом SIGTERM" },
          signals := [Signal.sigterm pid], world := killWorld w pid }
      else
        match fuel with
        | fuel' + 1 =>
          let r := terminateFuel w pid fuel' true (timeout / 2)
          { outcome := r.outcome, signals := Signal.sigterm pid :: r.signals,
            world := r.world }
        | 0 =>
          { outcome :=
              { pid := pid, name := info.name, result := .TIMEOUT,
                message := "Таймаут при завершении процесса " ++ info.name ++
                  " (PID: " ++ toString pid ++ ")" },
            signals := [Signal.sigterm pid], world := w }

/-- `ProcessManager.terminate_process_by_pid`: the per-PID termination state
machine, entered with one unit of escalation budget (the source recurses at
most once, because the escalated call is already forced). -/
def terminate_process_by_pid (w : World) (pid : Nat) (force : Bool)
    (timeout : Nat) : TermResult :=
  terminateFuel w pid 1 force timeout

/-- The synthetic outcome for a blocked system port
(`terminate_process_by_port`, first early return). -/
def systemPortInfo (port : Nat) : ProcessTerminationInfo :=
  { pid := 0, name := "Системный порт", result := .SYSTEM_PROCESS,
    message := "Порт " ++ toString port ++
      " является системным. Для работы с ним включите allow_system_ports=True" }

/-- The synthetic outcome for a port with no bound socket
(`terminate_process_by_port`, second early return). -/
def portNotUsedInfo (protocol : String) (port : Nat) : ProcessTerminationInfo :=
  { pid := 0, name := "Не найден", result := .NOT_FOUND,
    message := "Порт " ++ strUpper protocol ++ ":" ++ toString port ++
      " не используется" }

/-- The synthetic outcome for a socket with no resolvable owner PID
(`terminate_process_by_port`, per-view else branch). -/
def pidUnknownInfo (protocol : String) (port : Nat) : ProcessTerminationInfo :=
  { pid := 0, name := "Неизвестен", result := .NOT_FOUND,
    message := "Не удалось определить процесс для порта " ++
      strUpper protocol ++ ":" ++ toString port }

/-- Python's truthiness test `if port_info.pid:` on an optional PID:
`None` and `0` are falsy. -/
def truthyPid : Option Nat → Bool
  | none => false
  | some p => decide (p ≠ 0)

/-- The result-accumulation loop of `terminate_process_by_port`: for each
resolved view, either run the per-PID state machine (threading the process
table through) or emit the synthetic unknown-PID outcome. -/
def killViews (protocol : String) (port : Nat) (force : Bool) (w : World) :
    List PortInfo → List ProcessTerminationInfo × List Signal × World
  | [] => ([], [], w)
  | v :: rest =>
    if truthyPid v.pid then
      let r := terminate_process_by_pid w (v.pid.getD 0) force 10
      let rec' := killViews protocol port force r.world rest
      (r.outcome :: rec'.1, r.signals ++ rec'.2.1, rec'.2.2)
    else
      let rec' := killViews protocol port force w rest
      (pidUnknownInfo protocol port :: rec'.1, rec'.2.1, rec'.2.2)

/-- `ProcessManager.terminate_process_by_port`: block system ports unless
`allow_system_ports`, resolve the port's views through the scanner, emit the
synthetic not-used outcome for an empty resolution, and otherwise run the
per-view loop. -/
def terminate_process_by_port (allow_system_ports : Bool) (w : World)
    (conns : List RawConn) (port : Nat) (protocol : String) (force : Bool) :
    List ProcessTerminationInfo × List Signal × World :=
  if port ∈ SYSTEM_PORTS ∧ ¬ allow_system_ports then
    ([systemPortInfo port], [], w)
  else
    let ports_info := find_port_by_number w conns port (some protocol)
    if ports_info = [] then
      ([portNotUsedInfo protocol port], [], w)
    else
      killViews protocol port force w ports_info

/-- The protection condition as the specification words it (§4.3): metadata
unretrievable, or `pid = 1`, or the lower-cased name contains a deny-list
substring, or the parent PID equals 2.  Stated independently of
`is_process_protected` so the two can be compared. -/
def protectedSpec (w : World) (pid : Nat) : Prop :=
  w pid = none ∨ w pid = some .denied ∨ pid = 1 ∨
    ∃ info, w pid = some (.ok info) ∧
      ((∃ s ∈ PROTECTED_PROCESSES, strContains s (strLower info.name) = true) ∨
        info.ppid = some 2)

/-- Fixture: an ordinary unprotected process that ignores SIGTERM but dies
on SIGKILL. -/
def infoApp : ProcInfo :=
  { name := "myapp", exe := "/usr/bin/myapp", cmdline := ["myapp", "-d"],
    username := "user", createTime := 100, ppid := some 1000,
    running := true, zombie := false, diesOnTerm := false, diesOnKill := true }

/-- Fixture: a secure-shell daemon process (protected by the deny-list). -/
def infoSshd : ProcInfo :=
  { name := "sshd", exe := "/usr/sbin/sshd", cmdline := ["sshd"],
    username := "root", createTime := 5, ppid := some 1,
    running := true, zombie := false, diesOnTerm := true, diesOnKill := true }

/-- Fixture: an empty process table. -/
def wEmpty : World := fun _ => none

/-- Fixture: a process table holding only `infoApp` at PID 5. -/
def wApp : World := fun n => if n = 5 then some (.ok infoApp) else none

/-- Fixture: a process table holding only `infoSshd` at PID 9. -/
def wSshd : World := fun n => if n = 9 then some (.ok infoSshd) else none

/-- Fixture: a TCP LISTEN socket on port 8080 owned by PID 5. -/
def connApp : RawConn :=
  { laddr := some { ip := "127.0.0.1", port := 8080 }, raddr := none,
    status := "LISTEN", type := .stream, pid := some 5 }

/-- Fixture: a UDP socket on port 53 with no owner PID. -/
def connUdp : RawConn :=
  { laddr := some { ip := "0.0.0.0", port := 53 }, raddr := none,
    status := "NONE", type := .dgram, pid := none }

/-- Fixture: a connection with no local address. -/
def connNoAddr : RawConn :=
  { laddr := none, raddr := none, status := "NONE", type := .stream,
    pid := none }

/-- Fixture: the `PortInfo` view that scanning `connApp` under `wApp`
produces. -/
def scanViewApp : PortInfo :=
  { port := 8080, protocol := "TCP", status := .LISTEN,
    local_addr := some "127.0.0.1", remote_addr := none, remote_port := none,
    pid := some 5, process_name := some "myapp",
    process_exe := some "/usr/bin/myapp", process_cmdline := some "myapp -d",
    process_username := some "user", process_create_time := some 100 }

theorem charsLt_trans : ∀ {x y z : List Char}, charsLt x y = true →
    charsLt y z = true → charsLt x z = true := by
  intro x
  induction x with
  | nil =>
    intro y z hxy hyz
    cases y with
    | nil => simp [charsLt] at hxy
    | cons b bs =>
      cases z with
      | nil => simp [charsLt] at hyz
      | cons c cs => simp [charsLt]
  | cons a as ih =>
    intro y z hxy hyz
    cases y with
    | nil => simp [charsLt] at hxy
    | cons b bs =>
      cases z with
      | nil => simp [charsLt] at hyz
      | cons c cs =>
        simp only [charsLt, Bool.or_eq_true, Bool.and_eq_true,
          decide_eq_true_eq, beq_iff_eq] at hxy hyz ⊢
        rcases hxy with h1 | ⟨hab, h2⟩
        · rcases hyz with h3 | ⟨hbc, h4⟩
          · exact Or.inl (lt_trans h1 h3)
          · exact Or.inl (hbc ▸ h1)
        · rcases hyz with h3 | ⟨hbc, h4⟩
          · exact Or.inl (hab ▸ h3)
          · exact Or.inr ⟨hab.trans hbc, ih h2 h4⟩

theorem charsLt_total : ∀ x y : List Char,
    charsLt x y = true ∨ x = y ∨ charsLt y x = true := by
  intro x
  induction x with
  | nil =>
    intro y
    cases y with
    | nil => exact Or.inr (Or.inl rfl)
    | cons b bs => exact Or.inl (by simp [charsLt])
  | cons a as ih =>
    intro y
    cases y with
    | nil => exact Or.inr (Or.inr (by simp [charsLt]))
    | cons b bs =>
      rcases lt_trichotomy a b with h | h | h
      · exact Or.inl (by simp [charsLt, h])
      · rcases ih bs with h2 | h2 | h2
        · exact Or.inl (by simp [charsLt, h, h2])
        · exact Or.inr (Or.inl (by rw [h, h2]))
        · exact Or.inr (Or.inr (by simp [charsLt, h.symm, h2]))
      · exact Or.inr (Or.inr (by simp [charsLt, h]))

instance : IsTrans PortInfo keyLe := by
  constructor
  intro a b c hab hbc
  rcases hab with h1 | ⟨h1, h1'⟩
  · rcases hbc with h2 | ⟨h2, h2'⟩
    · exact Or.inl (charsLt_trans h1 h2)
    · exact Or.inl (congrArg String.data h2 ▸ h1)
  · rcases hbc with h2 | ⟨h2, h2'⟩
    · exact Or.inl (congrArg String.data h1 ▸ h2)
    · exact Or.inr ⟨h1.trans h2, h1'.trans h2'⟩

instance : IsTotal PortInfo keyLe := by
  constructor
  intro a b
  rcases charsLt_total a.protocol.data b.protocol.data with h | h | h
  · exact Or.inl (Or.inl h)
  · rcases Nat.le_total a.port b.port with hp | hp
    · exact Or.inl (Or.inr ⟨String.ext h, hp⟩)
    · exact Or.inr (Or.inr ⟨String.ext h.symm, hp⟩)
  · exact Or.inr (Or.inl h)

/-- C7: the sequence returned by `scan_all_ports` is sorted in ascending
order of the key `(transport, localPort)`, and the elements carrying any
fixed key value appear in exactly their original enumeration (insertion)
order: filtering the scan result by a key equals filtering the processed
connection list (in enumeration order) by that key. -/
theorem scan_all_sorted_stable (w : World) (conns : List RawConn) :
    (scan_all_ports w conns).Sorted keyLe ∧
    ∀ pr : String, ∀ pt : Nat,
      (scan_all_ports w conns).filter
          (fun v => decide (v.protocol = pr ∧ v.port = pt)) =
        (conns.filterMap (fun c => process_connection w c)).filter
          (fun v => decide (v.protocol = pr ∧ v.port = pt)) := by
  constructor
  · exact List.sorted_insertionSort keyLe _
  · intro pr pt
    set ps := conns.filterMap (fun c => process_connection w c) with hps
    set f : PortInfo → Bool := fun v => decide (v.protocol = pr ∧ v.port = pt)
      with hf
    have hkey : ∀ v : PortInfo, f v = true → v.protocol = pr ∧ v.port = pt := by
      intro v hv
      simpa [hf] using hv
    have h1 : (ps.filter f).Pairwise keyLe := by
      apply List.pairwise_of_forall_mem_list
      intro x hx y hy
      obtain ⟨hx1, hx2⟩ := hkey x (List.of_mem_filter hx)
      obtain ⟨hy1, hy2⟩ := hkey y (List.of_mem_filter hy)
      exact Or.inr ⟨hx1.trans hy1.symm, by rw [hx2, hy2]⟩
    have h2 : List.Sublist (ps.filter f) ps := List.filter_sublist ps
    have h3 : List.Sublist (ps.filter f) (ps.insertionSort keyLe) :=
      List.sublist_insertionSort h1 h2
    have h4 : (ps.filter f).filter f = ps.filter f :=
      List.filter_eq_self.mpr (fun a ha => List.of_mem_filter ha)
    have h5 : List.Sublist (ps.filter f) ((ps.insertionSort keyLe).filter f) := by
      have := h3.filter f
      rwa [h4] at this
    have h6 : ((ps.insertionSort keyLe).filter f).length = (ps.filter f).length :=
      ((List.perm_insertionSort keyLe ps).filter f).length_eq
    exact (h5.eq_of_length h6.symm).symm

theorem mem_scan_all_iff {w : World} {conns : List RawConn} {v : PortInfo} :
    v ∈ scan_all_ports w conns ↔
      ∃ c ∈ conns, process_connection w c = some v := by
  unfold scan_all_ports
  rw [List.mem_insertionSort]
  exact List.mem_filterMap

theorem process_connection_shape {w : World} {c : RawConn} {v : PortInfo}
    (h : process_connection w c = some v) :
    ∃ la : SockAddr, c.laddr = some la ∧ v.port = la.port ∧
      v.local_addr = some la.ip ∧
      (v.protocol = "TCP" ∨ v.protocol = "UDP") := by
  unfold process_connection at h
  cases hl : c.laddr with
  | none => rw [hl] at h; exact absurd h (by simp)
  | some la =>
    rw [hl] at h
    simp only [Option.some.injEq] at h
    refine ⟨la, rfl, ?_, ?_, ?_⟩
    · rw [← h]
    · rw [← h]
    · rw [← h]
      by_cases ht : c.type = ConnType.stream
      · exact Or.inl (by simp [ht])
      · exact Or.inr (by simp [ht])

theorem mem_query_mem_scan_all {w : World} {conns : List RawConn}
    {s e : Nat} {prot : String} {pn : Nat} {po : Option String} {v : PortInfo}
    (h : v ∈ scan_all_ports w conns ∨ v ∈ scan_listening_ports w conns ∨
      v ∈ scan_port_range w conns s e prot ∨
      v ∈ find_port_by_number w conns pn po) :
    v ∈ scan_all_ports w conns := by
  rcases h with h | h | h | h
  · exact h
  · exact List.mem_of_mem_filter h
  · exact List.mem_of_mem_filter h
  · cases po with
    | none =>
      simp only [find_port_by_number] at h
      exact List.mem_of_mem_filter h
    | some pr =>
      simp only [find_port_by_number] at h
      by_cases hpr : pr = ""
      · rw [if_pos hpr] at h
        exact List.mem_of_mem_filter h
      · rw [if_neg hpr] at h
        exact List.mem_of_mem_filter (List.mem_of_mem_filter h)

/-- C8: under the OS socket-table contract that every reported local address
carries a port in 1..65535, every `PortInfo` returned by any of the four scan
operations has `1 ≤ port ≤ 65535`, and its transport is exactly `"TCP"` or
`"UDP"`. -/
theorem scan_views_wellformed (w : World) (conns : List RawConn)
    (hin : ∀ c ∈ conns, ∀ a : SockAddr, c.laddr = some a →
      1 ≤ a.port ∧ a.port ≤ 65535) :
    ∀ s e : Nat, ∀ prot : String, ∀ pn : Nat, ∀ po : Option String,
      ∀ v : PortInfo,
      (v ∈ scan_all_ports w conns ∨ v ∈ scan_listening_ports w conns ∨
        v ∈ scan_port_range w conns s e prot ∨
        v ∈ find_port_by_number w conns pn po) →
      (1 ≤ v.port ∧ v.port ≤ 65535) ∧
        (v.protocol = "TCP" ∨ v.protocol = "UDP") := by
  intro s e prot pn po v hv
  obtain ⟨c, hc, hpc⟩ := mem_scan_all_iff.mp (mem_query_mem_scan_all hv)
  obtain ⟨la, hla, hport, _, hproto⟩ := process_connection_shape hpc
  refine ⟨?_, hproto⟩
  rw [hport]
  exact hin c hc la hla

theorem scan_views_wellformed_witness :
    (1 ≤ (scanViewApp).port ∧ (scanViewApp).port ≤ 65535) ∧
      ((scanViewApp).protocol = "TCP" ∨ (scanViewApp).protocol = "UDP") :=
  scan_views_wellformed wApp [connApp, connUdp] (by decide) 1 100 "tcp" 8080
    (some "tcp") scanViewApp (Or.inl (by decide))

/-- C9: a connection whose local address is absent is silently dropped — the
per-connection step yields nothing for it and the rest of the scan is
unaffected — and consequently every view returned by any query carries a
present local address (the IP of some enumerated connection's local socket
address) and that address's port. -/
theorem no_local_addr_skipped (w : World) (c : RawConn)
    (hc : c.laddr = none) :
    process_connection w c = none ∧
    (∀ cs : List RawConn, scan_all_ports w (c :: cs) = scan_all_ports w cs) ∧
    (∀ conns : List RawConn, ∀ s e : Nat, ∀ prot : String, ∀ pn : Nat,
      ∀ po : Option String, ∀ v : PortInfo,
      (v ∈ scan_all_ports w conns ∨ v ∈ scan_listening_ports w conns ∨
        v ∈ scan_port_range w conns s e prot ∨
        v ∈ find_port_by_number w conns pn po) →
      v.local_addr ≠ none ∧
        ∃ c' ∈ conns, ∃ la : SockAddr, c'.laddr = some la ∧
          v.local_addr = some la.ip ∧ v.port = la.port) := by
  have hnone : process_connection w c = none := by
    unfold process_connection
    rw [hc]
  refine ⟨hnone, ?_, ?_⟩
  · intro cs
    unfold scan_all_ports
    rw [List.filterMap_cons, hnone]
  · intro conns s e prot pn po v hv
    obtain ⟨c', hc', hpc⟩ := mem_scan_all_iff.mp (mem_query_mem_scan_all hv)
    obtain ⟨la, hla, hport, haddr, _⟩ := process_connection_shape hpc
    exact ⟨by rw [haddr]; simp, c', hc', la, hla, haddr, hport⟩

theorem no_local_addr_skipped_witness :
    process_connection wApp connNoAddr = none ∧
    scan_all_ports wApp [connNoAddr, connApp] = scan_all_ports wApp [connApp] :=
  ⟨(no_local_addr_skipped wApp connNoAddr rfl).1,
    (no_local_addr_skipped wApp connNoAddr rfl).2.1 [connApp]⟩

/-- C5 counterexample: the degraded snapshot's synthesized name is the
source's literal `"PID:<pid> (недоступен)"`, not the string
`"PID:<pid> (unavailable)"` stated by the claim. -/
theorem fetch_degraded_name_counterexample :
    (get_process_info wEmpty (some 7)).process_name =
        some "PID:7 (недоступен)" ∧
      (get_process_info wEmpty (some 7)).process_name ≠
        some "PID:7 (unavailable)" := by
  decide

/-- C5 (amended): for a PID whose process vanished, denies access, or is a
zombie, `get_process_info` still returns a record (never fails outward): the
name is synthesized as `"PID:<pid> (недоступен)"` and every other optional
field is empty, and a connection owned by such a PID still yields a full
`PortInfo` carrying that degraded metadata rather than being dropped. -/
theorem fetch_degraded_snapshot (w : World) (p : Nat)
    (h : w p = none ∨ w p = some .denied ∨
      ∃ info, w p = some (.ok info) ∧ info.zombie = true) :
    get_process_info w (some p) =
      { pid := some p,
        process_name := some ("PID:" ++ toString p ++ " (недоступен)"),
        process_exe := none, process_cmdline := none,
        process_username := none, process_create_time := none } ∧
    ∀ c : RawConn, c.pid = some p → ∀ la : SockAddr, c.laddr = some la →
      ∃ v : PortInfo, process_connection w c = some v ∧
        v.process_name = some ("PID:" ++ toString p ++ " (недоступен)") ∧
        v.process_exe = none ∧ v.process_cmdline = none ∧
        v.process_username = none ∧ v.process_create_time = none := by
  have h1 : get_process_info w (some p) =
      { pid := some p,
        process_name := some ("PID:" ++ toString p ++ " (недоступен)"),
        process_exe := none, process_cmdline := none,
        process_username := none, process_create_time := none } := by
    rcases h with h | h | ⟨info, h, hz⟩
    · simp [get_process_info, h]
    · simp [get_process_info, h]
    · simp [get_process_info, h, hz]
  refine ⟨h1, ?_⟩
  intro c hcp la hla
  have hpc : process_connection w c = some
      { port := la.port,
        protocol := if c.type = ConnType.stream then "TCP" else "UDP",
        status := statusMapping c.status,
        local_addr := some la.ip,
        remote_addr := c.raddr.map (fun a => a.ip),
        remote_port := c.raddr.map (fun a => a.port),
        pid := (get_process_info w c.pid).pid,
        process_name := (get_process_info w c.pid).process_name,
        process_exe := (get_process_info w c.pid).process_exe,
        process_cmdline := (get_process_info w c.pid).process_cmdline,
        process_username := (get_process_info w c.pid).process_username,
        process_create_time := (get_process_info w c.pid).process_create_time }
      := by
    unfold process_connection
    rw [hla]
  exact ⟨_, hpc, by simp [hcp, h1], by simp [hcp, h1], by simp [hcp, h1],
    by simp [hcp, h1], by simp [hcp, h1]⟩

theorem fetch_degraded_snapshot_witness :
    get_process_info wEmpty (some 7) =
      { pid := some 7, process_name := some "PID:7 (недоступен)",
        process_exe := none, process_cmdline := none,
        process_username := none, process_create_time := none } :=
  (fetch_degraded_snapshot wEmpty 7 (Or.inl rfl)).1

theorem is_protected_ok_iff {w : World} {pid : Nat} {info : ProcInfo}
    (hw : w pid = some (.ok info)) :
    is_process_protected w pid = true ↔
      (PROTECTED_PROCESSES.any
          (fun s => strContains s (strLower info.name)) = true ∨
        pid = 1 ∨ info.ppid = some 2) := by
  simp only [is_process_protected, hw]
  by_cases h1 : PROTECTED_PROCESSES.any
      (fun s => strContains s (strLower info.name)) = true
  · simp [h1]
  · by_cases h2 : pid = 1
    · simp [h1, h2]
    · cases hp : info.ppid with
      | none => simp [h1, h2, hp]
      | some pp => simp [h1, h2, hp]

/-- C2: `is_process_protected w pid` is true exactly when the metadata for
`pid` is unretrievable (process gone or access denied), or `pid = 1`, or the
lower-cased process name contains a deny-list substring, or the parent PID
equals 2; in particular PID 1 is always protected and an unresolvable PID is
protected (fail closed). -/
theorem is_protected_iff (w : World) (pid : Nat) :
    (is_process_protected w pid = true ↔ protectedSpec w pid) ∧
    is_process_protected w 1 = true ∧
    (w pid = none → is_process_protected w pid = true) := by
  refine ⟨?_, ?_, ?_⟩
  · cases hw : w pid with
    | none => simp [is_process_protected, hw, protectedSpec]
    | some e =>
      cases e with
      | denied => simp [is_process_protected, hw, protectedSpec]
      | ok info =>
        rw [is_protected_ok_iff hw]
        unfold protectedSpec
        rw [hw]
        simp only [List.any_eq_true]
        constructor
        · rintro (h | h | h)
          · exact Or.inr (Or.inr (Or.inr ⟨info, rfl, Or.inl h⟩))
          · exact Or.inr (Or.inr (Or.inl h))
          · exact Or.inr (Or.inr (Or.inr ⟨info, rfl, Or.inr h⟩))
        · rintro (h | h | h | ⟨info', hinfo, hcase⟩)
          · exact absurd h (by simp)
          · exact absurd h (by simp)
          · exact Or.inr (Or.inl h)
          · obtain rfl : info = info' := by
              simpa using hinfo
            rcases hcase with h | h
            · exact Or.inl h
            · exact Or.inr (Or.inr h)
  · cases hw : w 1 with
    | none => simp [is_process_protected, hw]
    | some e =>
      cases e with
      | denied => simp [is_process_protected, hw]
      | ok info => simp [is_protected_ok_iff hw]
  · intro hw
    simp [is_process_protected, hw]

theorem is_protected_iff_witness :
    protectedSpec wApp 1 ∧ is_process_protected wEmpty 5 = true ∧
      is_process_protected wSshd 9 = true :=
  ⟨(is_protected_iff wApp 1).1.mp (by decide),
    (is_protected_iff wEmpty 5).2.2 rfl,
    (is_protected_iff wSshd 9).1.mpr
      (Or.inr (Or.inr (Or.inr ⟨infoSshd, rfl,
        Or.inl (by decide)⟩)))⟩

theorem terminateFuel_forced_fuel (w : World) (pid : Nat) (t : Nat)
    (f f' : Nat) : terminateFuel w pid f true t = terminateFuel w pid f' true t := by
  unfold terminateFuel
  cases hw : w pid with
  | none => rfl
  | some e =>
    cases e with
    | denied => rfl
    | ok info => cases f <;> cases f' <;> rfl

theorem terminateFuel_pid (w : World) (pid : Nat) :
    ∀ (f : Nat) (force : Bool) (t : Nat),
      (terminateFuel w pid f force t).outcome.pid = pid := by
  intro f
  induction f with
  | zero =>
    intro force t
    unfold terminateFuel
    cases hw : w pid with
    | none => rfl
    | some e =>
      cases e with
      | denied => rfl
      | ok info =>
        by_cases hprot : is_process_protected w pid = true
        · simp [hprot]
        · by_cases hrun : info.running = true
          · cases force with
            | true =>
              by_cases hkill : info.diesOnKill = true
              · simp [hprot, hrun, hkill]
              · simp [hprot, hrun, hkill]
            | false =>
              by_cases hterm : info.diesOnTerm = true
              · simp [hprot, hrun, hterm]
              · simp [hprot, hrun, hterm]
          · simp [hprot, Bool.eq_false_iff.mpr hrun]
  | succ f ih =>
    intro force t
    unfold terminateFuel
    cases hw : w pid with
    | none => rfl
    | some e =>
      cases e with
      | denied => rfl
      | ok info =>
        by_cases hprot : is_process_protected w pid = true
        · simp [hprot]
        · by_cases hrun : info.running = true
          · cases force with
            | true =>
              by_cases hkill : info.diesOnKill = true
              · simp [hprot, hrun, hkill]
              · simp [hprot, hrun, hkill]
            | false =>
              by_cases hterm : info.diesOnTerm = true
              · simp [hprot, hrun, hterm]
              · simp [hprot, hrun, hterm, ih]
          · simp [hprot, Bool.eq_false_iff.mpr hrun]

theorem terminateFuel_forced_signals (w : World) (pid : Nat) (f t : Nat) :
    (terminateFuel w pid f true t).signals.length ≤ 1 := by
  rw [terminateFuel_forced_fuel w pid t f 0]
  unfold terminateFuel
  cases hw : w pid with
  | none => simp
  | some e =>
    cases e with
    | denied => simp
    | ok info =>
      by_cases hprot : is_process_protected w pid = true
      · simp [hprot]
      · by_cases hrun : info.running = true
        · by_cases hkill : info.diesOnKill = true
          · simp [hprot, hrun, hkill]
          · simp [hprot, hrun, hkill]
        · simp [hprot, Bool.eq_false_iff.mpr hrun]

theorem terminateFuel_success_world (w : World) (pid : Nat) :
    ∀ (f : Nat) (force : Bool) (t : Nat),
      (terminateFuel w pid f force t).outcome.result = .SUCCESS →
      ∃ info, w pid = some (.ok info) ∧ is_process_protected w pid = false ∧
        info.running = true ∧
        (terminateFuel w pid f force t).world = killWorld w pid := by
  intro f
  induction f with
  | zero =>
    intro force t h
    rw [terminateFuel] at h ⊢
    revert h
    cases hw : w pid with
    | none => intro h; exact absurd h (by simp)
    | some e =>
      cases e with
      | denied => intro h; exact absurd h (by simp)
      | ok info =>
        intro h
        by_cases hprot : is_process_protected w pid = true
        · exact absurd h (by simp [hprot])
        · by_cases hrun : info.running = true
          · cases force with
            | true =>
              by_cases hkill : info.diesOnKill = true
              · exact ⟨info, rfl, Bool.eq_false_iff.mpr hprot, hrun,
                  by simp [hprot, hrun, hkill]⟩
              · simp [hprot, hrun, hkill] at h
            | false =>
              by_cases hterm : info.diesOnTerm = true
              · exact ⟨info, rfl, Bool.eq_false_iff.mpr hprot, hrun,
                  by simp [hprot, hrun, hterm]⟩
              · simp [hprot, hrun, hterm] at h
          · simp [hprot, Bool.eq_false_iff.mpr hrun] at h
  | succ f ih =>
    intro force t h
    rw [terminateFuel] at h ⊢
    revert h
    cases hw : w pid with
    | none => intro h; exact absurd h (by simp)
    | some e =>
      cases e with
      | denied => intro h; exact absurd h (by simp)
      | ok info =>
        intro h
        by_cases hprot : is_process_protected w pid = true
        · exact absurd h (by simp [hprot])
        · by_cases hrun : info.running = true
          · cases force with
            | true =>
              by_cases hkill : info.diesOnKill = true
              · exact ⟨info, rfl, Bool.eq_false_iff.mpr hprot, hrun,
                  by simp [hprot, hrun, hkill]⟩
              · simp [hprot, hrun, hkill] at h
            | false =>
              by_cases hterm : info.diesOnTerm = true
              · exact ⟨info, rfl, Bool.eq_false_iff.mpr hprot, hrun,
                  by simp [hprot, hrun, hterm]⟩
              · have h2 : (terminateFuel w pid f true (t / 2)).outcome.result
                    = .SUCCESS := by
                  simpa [hprot, hrun, hterm] using h
                obtain ⟨info', hw', hprot', hrun', hworld'⟩ := ih true (t / 2) h2
                exact ⟨info, rfl, Bool.eq_false_iff.mpr hprot, hrun,
                  by simpa [hprot, hrun, hterm] using hworld'⟩
          · simp [hprot, Bool.eq_false_iff.mpr hrun] at h

theorem is_protected_killWorld (w : World) (pid : Nat) :
    is_process_protected (killWorld w pid) pid = is_process_protected w pid := by
  unfold is_process_protected killWorld
  cases hw : w pid with
  | none => simp [hw]
  | some e =>
    cases e with
    | denied => simp [hw]
    | ok info => simp [hw]

theorem killWorld_lookup {w : World} {pid : Nat} {info : ProcInfo}
    (hw : w pid = some (.ok info)) :
    killWorld w pid pid = some (.ok { info with running := false }) := by
  unfold killWorld
  simp [hw]

/-- C1 counterexample: a PID that is protected because it is unresolvable
(fail closed) does not make `terminate_process_by_pid` report the protected
kind — the call reports `NOT_FOUND` instead (the name-resolution step runs
first), so "isProtected implies outcome PROTECTED" is false as stated. -/
theorem protected_claim_counterexample :
    is_process_protected wEmpty 5 = true ∧
    (terminate_process_by_pid wEmpty 5 false 10).outcome.result =
      .NOT_FOUND ∧
    (terminate_process_by_pid wEmpty 5 false 10).outcome.result ≠
      .SYSTEM_PROCESS := by
  decide

/-- C1 (amended): for every protected PID no termination signal is ever
issued, and the outcome kind is `SYSTEM_PROCESS` (the spec's `PROTECTED`)
whenever the process metadata is retrievable; when it is not, the outcome is
`NOT_FOUND` (process gone) or `ACCESS_DENIED` (metadata denied), still with
no signal sent. -/
theorem protected_pid_no_signal (w : World) (pid : Nat) (force : Bool)
    (t : Nat) (h : is_process_protected w pid = true) :
    (terminate_process_by_pid w pid force t).signals = [] ∧
    (∀ info, w pid = some (.ok info) →
      (terminate_process_by_pid w pid force t).outcome.result =
        .SYSTEM_PROCESS) ∧
    (w pid = none →
      (terminate_process_by_pid w pid force t).outcome.result = .NOT_FOUND) ∧
    (w pid = some .denied →
      (terminate_process_by_pid w pid force t).outcome.result =
        .ACCESS_DENIED) := by
  unfold terminate_process_by_pid
  rw [terminateFuel]
  cases hw : w pid with
  | none =>
    refine ⟨rfl, ?_, fun _ => rfl, ?_⟩
    · intro info hinfo
      exact absurd hinfo (by simp)
    · intro hd
      exact absurd hd (by simp)
  | some e =>
    cases e with
    | denied =>
      refine ⟨rfl, ?_, ?_, fun _ => rfl⟩
      · intro info hinfo
        exact absurd hinfo (by simp)
      · intro hn
        exact absurd hn (by simp)
    | ok info =>
      refine ⟨by simp [h], ?_, ?_, ?_⟩
      · intro info' _
        simp [h]
      · intro hn
        exact absurd hn (by simp)
      · intro hd
        exact absurd hd (by simp)

theorem protected_pid_no_signal_witness :
    (terminate_process_by_pid wSshd 9 false 10).signals = [] ∧
    (terminate_process_by_pid wSshd 9 false 10).outcome.result =
      .SYSTEM_PROCESS :=
  ⟨(protected_pid_no_signal wSshd 9 false 10 (by decide)).1,
    (protected_pid_no_signal wSshd 9 false 10 (by decide)).2.1 infoSshd
      (by decide)⟩

/-- C6: whenever a `terminate_process_by_pid` call reports `SUCCESS`, a
second call on the same PID against the resulting process table reports
`ALREADY_TERMINATED`: the liveness check finds the process no longer
running and the machine stops there. -/
theorem terminate_already_terminated (w : World) (pid : Nat)
    (force : Bool) (t : Nat) (force' : Bool) (t' : Nat)
    (h : (terminate_process_by_pid w pid force t).outcome.result = .SUCCESS) :
    ((terminate_process_by_pid
      (terminate_process_by_pid w pid force t).world pid force' t').outcome).result =
      .ALREADY_TERMINATED := by
  obtain ⟨info, hw, hprot, hrun, hworld⟩ :=
    terminateFuel_success_world w pid 1 force t h
  unfold terminate_process_by_pid
  rw [hworld]
  have hk : killWorld w pid pid = some (.ok { info with running := false }) :=
    killWorld_lookup hw
  have hp : is_process_protected (killWorld w pid) pid = false := by
    rw [is_protected_killWorld, hprot]
  rw [terminateFuel, hk]
  simp [hp]

theorem terminate_already_terminated_witness :
    ((terminate_process_by_pid
      (terminate_process_by_pid wApp 5 true 10).world 5 false 10).outcome).result =
      .ALREADY_TERMINATED :=
  terminate_already_terminated wApp 5 true 10 false 10 (by decide)

/-- C3: a soft call whose wait times out is re-invoked exactly once with
`force := true` and half the timeout (so the escalated outcome, signal trace
and table are the soft call's, behind one SIGTERM); a forced call whose wait
times out is terminal `TIMEOUT` (no further escalation); every caller-level
invocation delivers at most two signals; and against a process that ignores
SIGTERM but honors SIGKILL the machine sends exactly SIGTERM then SIGKILL and
ends in `SUCCESS` or `TIMEOUT`. -/
theorem terminate_escalation :
    (∀ (w : World) (pid : Nat) (t : Nat) (info : ProcInfo),
      w pid = some (.ok info) → is_process_protected w pid = false →
      info.running = true → info.diesOnTerm = false →
      terminate_process_by_pid w pid false t =
        { outcome := (terminate_process_by_pid w pid true (t / 2)).outcome,
          signals := Signal.sigterm pid ::
            (terminate_process_by_pid w pid true (t / 2)).signals,
          world := (terminate_process_by_pid w pid true (t / 2)).world }) ∧
    (∀ (w : World) (pid : Nat) (t : Nat) (info : ProcInfo),
      w pid = some (.ok info) → is_process_protected w pid = false →
      info.running = true → info.diesOnKill = false →
      (terminate_process_by_pid w pid true t).outcome.result = .TIMEOUT ∧
      (terminate_process_by_pid w pid true t).signals =
        [Signal.sigkill pid]) ∧
    (∀ (w : World) (pid : Nat) (force : Bool) (t : Nat),
      (terminate_process_by_pid w pid force t).signals.length ≤ 2) ∧
    (∀ (w : World) (pid : Nat) (t : Nat) (info : ProcInfo),
      w pid = some (.ok info) → is_process_protected w pid = false →
      info.running = true → info.diesOnTerm = false → info.diesOnKill = true →
      (terminate_process_by_pid w pid false t).signals =
        [Signal.sigterm pid, Signal.sigkill pid] ∧
      ((terminate_process_by_pid w pid false t).outcome.result = .SUCCESS ∨
        (terminate_process_by_pid w pid false t).outcome.result =
          .TIMEOUT)) := by
  refine ⟨?_, ?_, ?_, ?_⟩
  · intro w pid t info hw hprot hrun hterm
    have hf : terminateFuel w pid 0 true (t / 2) =
        terminateFuel w pid 1 true (t / 2) :=
      terminateFuel_forced_fuel w pid (t / 2) 0 1
    unfold terminate_process_by_pid
    conv_lhs => rw [terminateFuel]
    simp [hw, hprot, hrun, hterm, hf]
  · intro w pid t info hw hprot hrun hkill
    constructor
    · unfold terminate_process_by_pid
      rw [terminateFuel]
      simp [hw, hprot, hrun, hkill]
    · unfold terminate_process_by_pid
      rw [terminateFuel]
      simp [hw, hprot, hrun, hkill]
  · intro w pid force t
    unfold terminate_process_by_pid
    rw [terminateFuel]
    cases hw : w pid with
    | none => simp
    | some e =>
      cases e with
      | denied => simp
      | ok info =>
        by_cases hprot : is_process_protected w pid = true
        · simp [hprot]
        · by_cases hrun : info.running = true
          · cases force with
            | true =>
              by_cases hkill : info.diesOnKill = true
              · simp [hprot, hrun, hkill]
              · simp [hprot, hrun, hkill]
            | false =>
              by_cases hterm : info.diesOnTerm = true
              · simp [hprot, hrun, hterm]
              · have hlen := terminateFuel_forced_signals w pid 0 (t / 2)
                simp only [hprot, hrun, hterm, if_false, Bool.not_true]
                simp
                omega
          · simp [hprot, Bool.eq_false_iff.mpr hrun]
  · intro w pid t info hw hprot hrun hterm hkill
    constructor
    · simp [terminate_process_by_pid, terminateFuel, hw, hprot, hrun, hterm,
        hkill]
    · left
      simp [terminate_process_by_pid, terminateFuel, hw, hprot, hrun, hterm,
        hkill]

theorem terminate_escalation_witness :
    (terminate_process_by_pid wApp 5 false 10).signals =
      [Signal.sigterm 5, Signal.sigkill 5] ∧
    ((terminate_process_by_pid wApp 5 false 10).outcome.result = .SUCCESS ∨
      (terminate_process_by_pid wApp 5 false 10).outcome.result = .TIMEOUT) :=
  terminate_escalation.2.2.2 wApp 5 10 infoApp (by decide) (by decide)
    (by decide) (by decide) (by decide)

/-- C4: with `allow_system_ports = false`, terminating by a port in the fixed
system-port set returns exactly one outcome — the synthetic blocked outcome
whose kind is `SYSTEM_PROCESS` (the spec's `PROTECTED`), whose message names
the port — with no signal sent and the process table untouched, regardless of
the socket table's contents. -/
theorem system_port_blocked (w : World) (conns : List RawConn) (p : Nat)
    (proto : String) (force : Bool) (hp : p ∈ SYSTEM_PORTS) :
    terminate_process_by_port false w conns p proto force =
      ([systemPortInfo p], [], w) ∧
    (systemPortInfo p).result = .SYSTEM_PROCESS ∧
    (systemPortInfo p).message =
      "Порт " ++ toString p ++
        " является системным. Для работы с ним включите allow_system_ports=True"
    := by
  refine ⟨?_, rfl, rfl⟩
  unfold terminate_process_by_port
  rw [if_pos ⟨hp, by simp⟩]

theorem system_port_blocked_witness :
    terminate_process_by_port false wEmpty [] 22 "tcp" false =
      ([systemPortInfo 22], [], wEmpty) :=
  (system_port_blocked wEmpty [] 22 "tcp" false (by decide)).1

theorem killViews_outcomes {protocol : String} {port : Nat} {force : Bool} :
    ∀ (views : List PortInfo) (w : World) (o : ProcessTerminationInfo),
      o ∈ (killViews protocol port force w views).1 →
      o.pid = 0 ∨ (o.pid ≠ 0 ∧
        ∃ w' : World,
          o = (terminate_process_by_pid w' o.pid force 10).outcome) := by
  intro views
  induction views with
  | nil =>
    intro w o ho
    simp [killViews] at ho
  | cons v rest ih =>
    intro w o ho
    by_cases hv : truthyPid v.pid = true
    · simp only [killViews, hv, if_true, List.mem_cons] at ho
      rcases ho with ho | ho
      · right
        have hgetD : v.pid.getD 0 ≠ 0 := by
          cases hp : v.pid with
          | none => rw [hp] at hv; simp [truthyPid] at hv
          | some q =>
            rw [hp] at hv
            simp only [truthyPid, decide_eq_true_eq] at hv
            simpa using hv
        have hpid : o.pid = v.pid.getD 0 := by
          rw [ho]
          exact terminateFuel_pid w (v.pid.getD 0) 1 force 10
        refine ⟨by rw [hpid]; exact hgetD, w, ?_⟩
        rw [hpid, ho]
      · exact ih _ o ho
    · rw [killViews, if_neg hv] at ho
      simp only [List.mem_cons] at ho
      rcases ho with ho | ho
      · exact Or.inl (by rw [ho]; rfl)
      · exact ih w o ho

/-- C10: every synthetic outcome of `terminate_process_by_port` — the
system-port block, the port-not-used outcome and the unknown-owner outcome —
carries `pid = 0`, while every outcome of a real per-PID attempt carries the
targeted (nonzero) PID, so the `pid` field alone separates the two. -/
theorem synthetic_outcomes_pid_zero :
    (∀ p : Nat, (systemPortInfo p).pid = 0) ∧
    (∀ (pr : String) (p : Nat), (portNotUsedInfo pr p).pid = 0) ∧
    (∀ (pr : String) (p : Nat), (pidUnknownInfo pr p).pid = 0) ∧
    (∀ (w : World) (pid : Nat) (force : Bool) (t : Nat),
      (terminate_process_by_pid w pid force t).outcome.pid = pid) ∧
    (∀ (allow : Bool) (w : World) (conns : List RawConn) (p : Nat)
      (proto : String) (force : Bool) (o : ProcessTerminationInfo),
      o ∈ (terminate_process_by_port allow w conns p proto force).1 →
      o.pid = 0 ∨ (o.pid ≠ 0 ∧
        ∃ w' : World,
          o = (terminate_process_by_pid w' o.pid force 10).outcome)) := by
  refine ⟨fun _ => rfl, fun _ _ => rfl, fun _ _ => rfl, ?_, ?_⟩
  · intro w pid force t
    exact terminateFuel_pid w pid 1 force t
  · intro allow w conns p proto force o ho
    simp only [terminate_process_by_port] at ho
    by_cases hsys : p ∈ SYSTEM_PORTS ∧ ¬ allow = true
    · rw [if_pos hsys] at ho
      simp at ho
      exact Or.inl (by rw [ho]; rfl)
    · rw [if_neg hsys] at ho
      by_cases hempty : find_port_by_number w conns p (some proto) = []
      · rw [if_pos hempty] at ho
        simp at ho
        exact Or.inl (by rw [ho]; rfl)
      · rw [if_neg hempty] at ho
        exact killViews_outcomes _ w o ho

theorem synthetic_outcomes_pid_zero_witness :
    (terminate_process_by_pid wApp 5 false 10).outcome.pid = 0 ∨
      ((terminate_process_by_pid wApp 5 false 10).outcome.pid ≠ 0 ∧
        ∃ w' : World, (terminate_process_by_pid wApp 5 false 10).outcome =
          (terminate_process_by_pid w'
            (terminate_process_by_pid wApp 5 false 10).outcome.pid
            false 10).outcome) :=
  synthetic_outcomes_pid_zero.2.2.2.2 false wApp [connApp, connUdp] 8080
    "tcp" false ((terminate_process_by_pid wApp 5 false 10).outcome)
    (by decide)
